import Mathlib

/-!
Verification of the kanshi filesystem tracer (Linux fanotify adapter and
Darwin FSEvents adapter) against its natural-language specification.

Shallow embedding notes:
- Paths (Rust `OsString`) are modelled as `String`; emptiness corresponds to
  `String.length = 0`.
- Kernel syscall outcomes (readlink of a file handle, fanotify mark results,
  epoll operations, lock acquisitions, presence of broadcast receivers) are
  inputs to the embedded functions, since the Rust code receives them from
  the OS.
- The error type `KanshiError` lives outside the provided sources (the spec
  declares the error-type definitions out of scope); its variants are taken
  from the uses in the two adapter files.
-/

/-- Discriminator for the subject of an event (file vs directory). -/
inductive FileSystemTargetKind where
  | File
  | Directory
  deriving DecidableEq, Repr

/-- Subject of an event: a kind and an OS path. -/
structure FileSystemTarget where
  kind : FileSystemTargetKind
  path : String
  deriving DecidableEq, Repr

/-- Semantic verb of a filesystem event; the moved variants carry the peer
path of the rename as payload. -/
inductive FileSystemEventType where
  | Create
  | Modify
  | Delete
  | Move
  | MovedFrom (peer : String)
  | MovedTo (peer : String)
  | Unknown
  deriving DecidableEq, Repr

/-- Delivered unit: an event type and an optional target. -/
structure FileSystemEvent where
  event_type : FileSystemEventType
  target : Option FileSystemTarget
  deriving DecidableEq, Repr

/-- Error type of the tracer operations. The variant names follow the uses
in fanotify.rs and fsevents.rs (`KanshiError::StreamClosedError`,
`KanshiError::ListenerStartedError`, `KanshiError::FileSystemError(msg)`). -/
inductive KanshiError where
  | StreamClosedError
  | ListenerStartedError
  | FileSystemError (msg : String)
  deriving DecidableEq, Repr

/-- OS error numbers, as far as the adapter distinguishes them: `ESTALE` is
handled specially by the event loop; every other errno is opaque. -/
inductive Errno where
  | ESTALE
  | EOTHER (name : String)
  deriving DecidableEq, Repr

/-- Conversion of an errno into a `KanshiError`, as performed by the `?`
operator in `start` when path resolution fails with a non-stale error. -/
def errnoToKanshi : Errno → KanshiError
  | Errno.ESTALE => KanshiError.FileSystemError "ESTALE"
  | Errno.EOTHER name => KanshiError.FileSystemError name

/-! ## Linux adapter (fanotify.rs) -/

/-- The fanotify mask bits that the Linux event loop inspects. -/
structure MaskFlags where
  fan_ondir : Bool
  fan_rename : Bool
  fan_create : Bool
  fan_delete_self : Bool
  fan_delete : Bool
  fan_modify : Bool
  fan_move_self : Bool
  deriving DecidableEq, Repr

/-- Info-record type tag of a fanotify Fid record; the rename handler
distinguishes the old-directory and new-directory name records. -/
inductive FidInfoType where
  | oldDfidName
  | newDfidName
  | otherInfo
  deriving DecidableEq, Repr

instance {α β : Type} [DecidableEq α] [DecidableEq β] : DecidableEq (Except α β) :=
  fun a b =>
    match a, b with
    | Except.error x, Except.error y =>
        if h : x = y then Decidable.isTrue (by rw [h])
        else Decidable.isFalse (fun hc => h (by injection hc))
    | Except.ok x, Except.ok y =>
        if h : x = y then Decidable.isTrue (by rw [h])
        else Decidable.isFalse (fun hc => h (by injection hc))
    | Except.error _, Except.ok _ => Decidable.isFalse (fun hc => Except.noConfusion hc)
    | Except.ok _, Except.error _ => Decidable.isFalse (fun hc => Except.noConfusion hc)

/-- A fanotify Fid info record. `readlinkResult` is the outcome of opening
the record's file handle and readlinking `/proc/self/fd/<n>` (an OS input);
`name` is the optional name attached to the record. -/
structure FidRecord where
  info_type : FidInfoType
  readlinkResult : Except Errno String
  name : Option String
  deriving DecidableEq, Repr

/-- A fanotify info record: either a Fid record or some other record kind
(which the event loop ignores). -/
inductive FanotifyInfoRecord where
  | Fid (r : FidRecord)
  | NonFid
  deriving DecidableEq, Repr

/-- Embedding of `get_path_from_record`: resolve the handle to a base path
(readlink outcome), then append `/name` unless the name is the self entry
`.`. A failed open or readlink surfaces the errno. -/
def get_path_from_record (r : FidRecord) : Except Errno String :=
  match r.readlinkResult with
  | Except.error e => Except.error e
  | Except.ok base =>
    match r.name with
    | some name => if name ≠ "." then Except.ok (base ++ "/" ++ name) else Except.ok base
    | none => Except.ok base

/-- Embedding of the record loop of the rename branch of `start`
(fanotify.rs lines 197-215): walk the attached records accumulating
`moved_from` (old-dfid-name record) and `moved_to` (new-dfid-name record).
A stale handle executes `break`, returning the accumulators as they stand;
any other resolution error propagates out of `start`. -/
def collectRenamePaths :
    List FanotifyInfoRecord → Option String → Option String →
    Except Errno (Option String × Option String)
  | [], moved_from, moved_to => Except.ok (moved_from, moved_to)
  | FanotifyInfoRecord.NonFid :: rest, moved_from, moved_to =>
      collectRenamePaths rest moved_from moved_to
  | FanotifyInfoRecord.Fid r :: rest, moved_from, moved_to =>
    match get_path_from_record r with
    | Except.error e =>
        if e = Errno.ESTALE then Except.ok (moved_from, moved_to) else Except.error e
    | Except.ok path =>
      match r.info_type with
      | FidInfoType.oldDfidName => collectRenamePaths rest (some path) moved_to
      | FidInfoType.newDfidName => collectRenamePaths rest moved_from (some path)
      | FidInfoType.otherInfo => collectRenamePaths rest moved_from moved_to

/-- Embedding of the rename emission of `start` (fanotify.rs lines 217-252):
if either half is missing, a single `Move` event with whichever path was
obtained (`moved_from.or(moved_to).unwrap_or(empty)`); otherwise the pair
`MovedTo(moved_to)` targeting `moved_from` followed by `MovedFrom(moved_from)`
targeting `moved_to`, in that send order. -/
def renameEvents (kind : FileSystemTargetKind) :
    Option String → Option String → List FileSystemEvent
  | some moved_from, some moved_to =>
      [⟨FileSystemEventType.MovedTo moved_to, some ⟨kind, moved_from⟩⟩,
       ⟨FileSystemEventType.MovedFrom moved_from, some ⟨kind, moved_to⟩⟩]
  | some moved_from, none => [⟨FileSystemEventType.Move, some ⟨kind, moved_from⟩⟩]
  | none, some moved_to => [⟨FileSystemEventType.Move, some ⟨kind, moved_to⟩⟩]
  | none, none => [⟨FileSystemEventType.Move, some ⟨kind, ""⟩⟩]

/-- Embedding of the non-rename mask dispatch of `start` (fanotify.rs lines
255-275): first-match order create, delete-self, delete, modify, move-self,
otherwise unknown. -/
def nonRenameEventType (m : MaskFlags) : FileSystemEventType :=
  if m.fan_create then FileSystemEventType.Create
  else if m.fan_delete_self then FileSystemEventType.Delete
  else if m.fan_delete then FileSystemEventType.Delete
  else if m.fan_modify then FileSystemEventType.Modify
  else if m.fan_move_self then FileSystemEventType.Move
  else FileSystemEventType.Unknown

/-- Outcome of the non-rename record loop: skip the whole event (stale
handle, `continue 'outer`), propagate an errno out of `start`, or finish
with the last resolved path (if any). -/
inductive NonRenamePathOutcome where
  | skipEvent
  | propagate (e : Errno)
  | resolved (p : Option String)
  deriving DecidableEq, Repr

/-- Embedding of the record loop of the non-rename branch of `start`
(fanotify.rs lines 278-292): each Fid record overwrites `path`; a stale
handle skips the entire event; any other error propagates. -/
def collectNonRenamePath :
    List FanotifyInfoRecord → Option String → NonRenamePathOutcome
  | [], acc => NonRenamePathOutcome.resolved acc
  | FanotifyInfoRecord.NonFid :: rest, acc => collectNonRenamePath rest acc
  | FanotifyInfoRecord.Fid r :: rest, acc =>
    match get_path_from_record r with
    | Except.error e =>
        if e = Errno.ESTALE then NonRenamePathOutcome.skipEvent
        else NonRenamePathOutcome.propagate e
    | Except.ok path =>
        let _ := acc
        collectNonRenamePath rest (some path)

/-- Outcome of the `mark` call that `start` performs when a directory
creation is observed: success, a failure whose message contains ENOENT
(tolerated), or another failure (surfaced). -/
inductive MarkOutcome where
  | ok
  | enoent
  | otherFail (msg : String)
  deriving DecidableEq, Repr

/-- One fanotify event as drained by `start`: its mask, its attached info
records, and the outcome the kernel would give to a `mark` call on the
resolved path (consulted only for directory creations). -/
structure FanotifyEvent where
  mask : MaskFlags
  records : List FanotifyInfoRecord
  markOutcome : MarkOutcome
  deriving DecidableEq, Repr

/-- The target kind computed by `start` for each drained event (fanotify.rs
lines 188-192): directory iff the mask has the on-dir bit. -/
def eventKind (m : MaskFlags) : FileSystemTargetKind :=
  if m.fan_ondir then FileSystemTargetKind.Directory else FileSystemTargetKind.File

/-- Embedding of the rename branch of `start` for one event: collect the
two halves and emit the corresponding event list. -/
def processRename (ev : FanotifyEvent) : Except KanshiError (List FileSystemEvent) :=
  match collectRenamePaths ev.records none none with
  | Except.error e => Except.error (errnoToKanshi e)
  | Except.ok (moved_from, moved_to) =>
      Except.ok (renameEvents (eventKind ev.mask) moved_from moved_to)

/-- Embedding of the non-rename branch of `start` for one event (fanotify.rs
lines 253-317): build the event with `target = none`, resolve at most one
path, and populate the target only when a non-empty path was resolved; on a
directory creation, mark the new path, tolerating ENOENT failures. The
result is the list of events to send (empty when the event is skipped). -/
def processNonRename (ev : FanotifyEvent) : Except KanshiError (List FileSystemEvent) :=
  match collectNonRenamePath ev.records none with
  | NonRenamePathOutcome.skipEvent => Except.ok []
  | NonRenamePathOutcome.propagate e => Except.error (errnoToKanshi e)
  | NonRenamePathOutcome.resolved p =>
    match p with
    | some path =>
      if path.length > 0 then
        if ev.mask.fan_create ∧ eventKind ev.mask = FileSystemTargetKind.Directory then
          match ev.markOutcome with
          | MarkOutcome.otherFail msg => Except.error (KanshiError.FileSystemError msg)
          | _ => Except.ok [⟨nonRenameEventType ev.mask, some ⟨eventKind ev.mask, path⟩⟩]
        else Except.ok [⟨nonRenameEventType ev.mask, some ⟨eventKind ev.mask, path⟩⟩]
      else Except.ok [⟨nonRenameEventType ev.mask, none⟩]
    | none => Except.ok [⟨nonRenameEventType ev.mask, none⟩]

/-- Embedding of the per-event dispatch of `start`: renames are handled
separately from all other masks. -/
def processEvent (ev : FanotifyEvent) : Except KanshiError (List FileSystemEvent) :=
  if ev.mask.fan_rename then processRename ev else processNonRename ev

/-- Embedding of processing plus sending for one event: every produced
event is sent to the broadcast sink, and a failed send (no receivers,
`hasReceivers = false`) makes `start` return `StreamClosedError`. On
success the delivered events are returned. -/
def stepEvent (hasReceivers : Bool) (ev : FanotifyEvent) :
    Except KanshiError (List FileSystemEvent) :=
  match processEvent ev with
  | Except.error e => Except.error e
  | Except.ok evs =>
      if evs.isEmpty ∨ hasReceivers then Except.ok evs
      else Except.error KanshiError.StreamClosedError

/-- Result of one `recv` on the broadcast receiver inside
`get_events_stream`. -/
inductive RecvOutcome where
  | ok (e : FileSystemEvent)
  | lagged (skipped : Nat)
  | closed
  deriving DecidableEq, Repr

/-- The alternative the `select` inside `get_events_stream` resolved to:
cancellation of the token, or a receive outcome. -/
inductive SelectOutcome where
  | cancelled
  | recv (r : RecvOutcome)
  deriving DecidableEq, Repr

/-- What one iteration of the stream loop does with the select outcome:
yield an event, loop again without yielding, or end the sequence. -/
inductive StreamAction where
  | yieldEvent (e : FileSystemEvent)
  | keepGoing
  | stop
  deriving DecidableEq, Repr

/-- Embedding of the loop body of `get_events_stream` in fanotify.rs (lines
146-163): cancellation breaks, a received event is yielded, `Closed` breaks,
and every other receive error (`Lagged`) falls through to the next
iteration. -/
def linux_stream_step : SelectOutcome → StreamAction
  | SelectOutcome.cancelled => StreamAction.stop
  | SelectOutcome.recv (RecvOutcome.ok e) => StreamAction.yieldEvent e
  | SelectOutcome.recv RecvOutcome.closed => StreamAction.stop
  | SelectOutcome.recv (RecvOutcome.lagged _) => StreamAction.keepGoing

/-- Embedding of the loop body of `get_events_stream` in fsevents.rs (lines
203-223), which has the same structure as the Linux one. -/
def darwin_stream_step : SelectOutcome → StreamAction
  | SelectOutcome.cancelled => StreamAction.stop
  | SelectOutcome.recv (RecvOutcome.ok e) => StreamAction.yieldEvent e
  | SelectOutcome.recv RecvOutcome.closed => StreamAction.stop
  | SelectOutcome.recv (RecvOutcome.lagged _) => StreamAction.keepGoing

/-- One directory entry as seen by the traversal in `watch`: its inode
number, whether it is a symlink, whether it is a directory, and its path. -/
structure DirItem where
  ino : Nat
  isSymlink : Bool
  isDir : Bool
  path : String
  deriving DecidableEq, Repr

/-- A filesystem view for the traversal: `read_dir` on a path either fails
(`none`) or yields entries, each being a `dir_item` read error (`none`), an
entry whose `metadata` call failed (`some none`), or a full entry. -/
def ReadDirView : Type := String → Option (List (Option (Option DirItem)))

/-- Kernel responses to `mark` calls, by path: `some e` means the mark
fails with that error. -/
def MarkView : Type := String → Option KanshiError

/-- Result of processing the entries of one directory during the traversal
of `watch`: an error from a failed mark (marks installed so far are kept),
or the updated traversal state together with the flag that a `dir_item`
read error broke the outer loop. -/
inductive ItemsResult where
  | failed (e : KanshiError) (marks : List String)
  | stepped (brokeOuter : Bool) (visited : List Nat) (queue : List String)
      (marks : List String)

/-- Embedding of the inner `for dir_item in dir_items` loop of `watch`
(fanotify.rs lines 108-127): a read error breaks the outer loop; a
metadata failure skips the entry; an unvisited non-symlink entry is
recorded, and if it is a directory it is marked (failure aborts `watch`)
and enqueued. -/
def watchItems (markView : MarkView) :
    List (Option (Option DirItem)) → List Nat → List String → List String →
    ItemsResult
  | [], visited, queue, marks => ItemsResult.stepped false visited queue marks
  | none :: _, visited, queue, marks => ItemsResult.stepped true visited queue marks
  | some none :: rest, visited, queue, marks => watchItems markView rest visited queue marks
  | some (some d) :: rest, visited, queue, marks =>
    if ¬ visited.contains d.ino ∧ ¬ d.isSymlink then
      if d.isDir then
        match markView d.path with
        | some e => ItemsResult.failed e marks
        | none =>
            watchItems markView rest (d.ino :: visited) (queue ++ [d.path])
              (marks ++ [d.path])
      else watchItems markView rest (d.ino :: visited) queue marks
    else watchItems markView rest visited queue marks

/-- Embedding of the breadth-first traversal loop of `watch` (fanotify.rs
lines 105-134), fuelled to ensure termination: pop the next directory, read
it (a failure breaks the loop with `Ok`), and process its entries. The
returned list records the marks installed. -/
def watchLoop (fsView : ReadDirView) (markView : MarkView) :
    Nat → List String → List Nat → List String →
    Except KanshiError Unit × List String
  | 0, _, _, marks => (Except.ok (), marks)
  | _ + 1, [], _, marks => (Except.ok (), marks)
  | fuel + 1, next :: qrest, visited, marks =>
    match fsView next with
    | none => (Except.ok (), marks)
    | some items =>
      match watchItems markView items visited qrest marks with
      | ItemsResult.failed e marks' => (Except.error e, marks')
      | ItemsResult.stepped true _ _ marks' => (Except.ok (), marks')
      | ItemsResult.stepped false visited' queue' marks' =>
          watchLoop fsView markView fuel queue' visited' marks'

/-- Embedding of `watch` (fanotify.rs lines 94-140): fail with
`StreamClosedError` if the cancellation token is cancelled (installing no
marks); otherwise mark the top directory (surfacing a failure) and run the
traversal. Returns the result together with the marks installed. -/
def linux_watch (fsView : ReadDirView) (markView : MarkView)
    (isCancelled : Bool) (dir : String) (fuel : Nat) :
    Except KanshiError Unit × List String :=
  if isCancelled then (Except.error KanshiError.StreamClosedError, [])
  else
    match markView dir with
    | some e => (Except.error e, [])
    | none => watchLoop fsView markView fuel [dir] [] [dir]

/-- Kernel-resource operations performed by the Linux `close`. -/
structure LinuxCloseOps where
  epollDeleted : Bool
  marksFlushed : Bool
  deriving DecidableEq, Repr

/-- Embedding of the Linux `close` (fanotify.rs lines 326-353): if already
cancelled, return true immediately without touching kernel resources;
otherwise cancel, deregister the fanotify fd from epoll, flush all marks,
and return true iff neither step reported an error. -/
def linux_close (isCancelled epollDeleteOk markFlushOk : Bool) :
    Bool × LinuxCloseOps :=
  if isCancelled then (true, ⟨false, false⟩)
  else (epollDeleteOk && markFlushOk, ⟨true, true⟩)

/-! ## Darwin adapter (fsevents.rs) -/

/-- The FSEvents flag bits that the callback inspects. -/
structure FSFlags where
  itemIsDir : Bool
  itemCreated : Bool
  itemRemoved : Bool
  itemRenamed : Bool
  itemModified : Bool
  deriving DecidableEq, Repr

/-- Embedding of the flag-to-event-type mapping of the Darwin callback
(fsevents.rs lines 87-110). -/
def darwin_event_type (f : FSFlags) : FileSystemEventType :=
  if f.itemCreated then
    if f.itemRemoved then FileSystemEventType.Delete
    else if f.itemRenamed then FileSystemEventType.Move
    else FileSystemEventType.Create
  else if f.itemRemoved then FileSystemEventType.Delete
  else if f.itemModified then FileSystemEventType.Modify
  else if f.itemRenamed then FileSystemEventType.Move
  else FileSystemEventType.Unknown

/-- Mapping that the specification describes in its own words, for
comparison with the code's `darwin_event_type`: priority created
(within it removed, then renamed, then plain create), then removed, then
modified, then renamed, then unknown. -/
def spec_darwin_event_type (f : FSFlags) : FileSystemEventType :=
  match f.itemCreated, f.itemRemoved, f.itemModified, f.itemRenamed with
  | true, true, _, _ => FileSystemEventType.Delete
  | true, false, _, true => FileSystemEventType.Move
  | true, false, _, false => FileSystemEventType.Create
  | false, true, _, _ => FileSystemEventType.Delete
  | false, false, true, _ => FileSystemEventType.Modify
  | false, false, false, true => FileSystemEventType.Move
  | false, false, false, false => FileSystemEventType.Unknown

/-- The target kind computed by the Darwin callback for each batch entry
(fsevents.rs lines 81-85): directory iff the is-dir flag is set. -/
def darwinEventKind (f : FSFlags) : FileSystemTargetKind :=
  if f.itemIsDir then FileSystemTargetKind.Directory else FileSystemTargetKind.File

/-- One entry of a Darwin callback batch: the path read from the
extended-data dictionary, the optional 64-bit file ID, and the flag
bitmap. -/
structure DarwinInput where
  path : String
  inode : Option Int
  flags : FSFlags
  deriving DecidableEq, Repr

/-- Path of an optional target, defaulting to the empty string. The Rust
callback unwraps the target of a map-stored event; every event the callback
stores in the map carries a `some` target, so the default is unreachable. -/
def targetPathD : Option FileSystemTarget → String
  | some t => t.path
  | none => ""

/-- Lookup and removal in the per-invocation rename-pairing map, modelled
as an association list keyed by file ID. -/
def inodeMapRemove (ino : Int) :
    List (Int × FileSystemEvent) → Option (FileSystemEvent × List (Int × FileSystemEvent))
  | [] => none
  | (k, ev) :: rest =>
    if k = ino then some (ev, rest)
    else
      match inodeMapRemove ino rest with
      | some (found, rest') => some (found, (k, ev) :: rest')
      | none => none

/-- Embedding of the body of the Darwin callback for one batch entry
(fsevents.rs lines 56-160). State: the rename-pairing map and the events
sent so far. A `Move` with a known file ID either pairs with the stored
event of the same ID (patching the stored event to `MovedTo(current path)`
and sending it, then sending a fresh `MovedFrom(stored path)` with the
current target) or is stored in the map unsent; every other event is sent
immediately. -/
def darwin_step (st : List (Int × FileSystemEvent) × List FileSystemEvent)
    (i : DarwinInput) : List (Int × FileSystemEvent) × List FileSystemEvent :=
  if darwin_event_type i.flags = FileSystemEventType.Move ∧ i.inode.isSome then
    match inodeMapRemove (i.inode.getD 0) st.1 with
    | some (old_event, map') =>
        (map', st.2 ++
          [⟨FileSystemEventType.MovedTo i.path, old_event.target⟩,
           ⟨FileSystemEventType.MovedFrom (targetPathD old_event.target),
            some ⟨darwinEventKind i.flags, i.path⟩⟩])
    | none =>
        ((i.inode.getD 0,
          (⟨darwin_event_type i.flags,
            some ⟨darwinEventKind i.flags, i.path⟩⟩ : FileSystemEvent)) :: st.1, st.2)
  else
    (st.1, st.2 ++
      [(⟨darwin_event_type i.flags,
         some ⟨darwinEventKind i.flags, i.path⟩⟩ : FileSystemEvent)])

/-- Embedding of the Darwin callback over a whole batch: fold the per-entry
step over the inputs, starting from an empty map and no sent events, and
return the events sent (entries left in the map are dropped at callback
exit). -/
def darwin_callback (inputs : List DarwinInput) : List FileSystemEvent :=
  (inputs.foldl darwin_step ([], [])).2

/-- Embedding of the Darwin `watch` (fsevents.rs lines 176-197): fail with
`ListenerStartedError` if the stream slot is occupied; fail with a
filesystem error if the path cannot be made absolute or does not exist;
otherwise append the absolute path to the pending list. The inputs record
the outcomes of the `path::absolute` and `exists` calls. -/
def darwin_watch (streamOccupied : Bool)
    (absoluteResult : Except String String) (exists_ : Bool)
    (paths : List String) : Except KanshiError (List String) :=
  if streamOccupied then Except.error KanshiError.ListenerStartedError
  else
    match absoluteResult with
    | Except.ok p =>
        if ¬ exists_ then
          Except.error (KanshiError.FileSystemError "ENOENT Directory does not exist")
        else Except.ok (paths ++ [p])
    | Except.error msg => Except.error (KanshiError.FileSystemError msg)

/-- Kernel-resource operations performed by the Darwin `close`. -/
structure DarwinCloseOps where
  streamStopped : Bool
  queueReleased : Bool
  deriving DecidableEq, Repr

/-- Embedding of the Darwin `close` (fsevents.rs lines 330-370): if already
cancelled, return true immediately without touching resources; otherwise
cancel, then stop/invalidate/release the stream if its lock is readable and
the slot holds one, and release the dispatch queue likewise; a failed
`try_read` on either lock marks an error. Returns true iff no lock read
failed. -/
def darwin_close (isCancelled streamLockOk streamPresent dqLockOk dqPresent : Bool) :
    Bool × DarwinCloseOps :=
  if isCancelled then (true, ⟨false, false⟩)
  else
    let streamErr := !streamLockOk
    let dqErr := !dqLockOk
    ((!streamErr && !dqErr),
     ⟨streamLockOk && streamPresent, dqLockOk && dqPresent⟩)

/-! ## Helper lemmas -/

/-- Boolean test for the MovedFrom verb. -/
def isMovedFromB : FileSystemEventType → Bool
  | FileSystemEventType.MovedFrom _ => true
  | _ => false

/-- Every event produced by the rename branch carries a move verb: `Move`,
`MovedFrom` or `MovedTo`. -/
theorem renameEvents_types (kind : FileSystemTargetKind) (mf mt : Option String)
    (e : FileSystemEvent) (hmem : e ∈ renameEvents kind mf mt) :
    e.event_type = FileSystemEventType.Move ∨
    (∃ p, e.event_type = FileSystemEventType.MovedFrom p) ∨
    (∃ p, e.event_type = FileSystemEventType.MovedTo p) := by
  rcases mf with _ | mf <;> rcases mt with _ | mt <;>
    simp only [renameEvents, List.mem_cons, List.mem_singleton, List.not_mem_nil,
      or_false] at hmem
  · subst hmem; left; rfl
  · subst hmem; left; rfl
  · subst hmem; left; rfl
  · rcases hmem with h | h <;> subst h
    · right; right; exact ⟨mt, rfl⟩
    · right; left; exact ⟨mf, rfl⟩

/-- Every event produced by the non-rename branch has the mask-derived verb,
and its target is either absent or carries the mask-derived kind and a
non-empty path. -/
theorem processNonRename_events (ev : FanotifyEvent) (evs : List FileSystemEvent)
    (e : FileSystemEvent) (hok : processNonRename ev = Except.ok evs)
    (hmem : e ∈ evs) :
    e.event_type = nonRenameEventType ev.mask ∧
    (e.target = none ∨
     ∃ p : String, e.target = some ⟨eventKind ev.mask, p⟩ ∧ p.length > 0) := by
  unfold processNonRename at hok
  cases hc : collectNonRenamePath ev.records none with
  | skipEvent =>
    rw [hc] at hok
    cases hok
    simp at hmem
  | propagate e' =>
    rw [hc] at hok
    cases hok
  | resolved p =>
    rw [hc] at hok
    cases p with
    | none =>
      cases hok
      simp only [List.mem_singleton] at hmem
      subst hmem
      exact ⟨rfl, Or.inl rfl⟩
    | some path =>
      dsimp only at hok
      by_cases hlen : path.length > 0
      · rw [if_pos hlen] at hok
        by_cases hcd : ev.mask.fan_create ∧ eventKind ev.mask = FileSystemTargetKind.Directory
        · rw [if_pos hcd] at hok
          cases hmo : ev.markOutcome <;> rw [hmo] at hok <;> try cases hok
          · simp only [List.mem_singleton] at hmem
            subst hmem
            exact ⟨rfl, Or.inr ⟨path, rfl, hlen⟩⟩
          · simp only [List.mem_singleton] at hmem
            subst hmem
            exact ⟨rfl, Or.inr ⟨path, rfl, hlen⟩⟩
        · rw [if_neg hcd] at hok
          cases hok
          simp only [List.mem_singleton] at hmem
          subst hmem
          exact ⟨rfl, Or.inr ⟨path, rfl, hlen⟩⟩
      · rw [if_neg hlen] at hok
        cases hok
        simp only [List.mem_singleton] at hmem
        subst hmem
        exact ⟨rfl, Or.inl rfl⟩

/-- A successful lookup-and-removal in the pairing map returns a stored
event and a sublist of the map. -/
theorem inodeMapRemove_spec (ino : Int) :
    ∀ (l : List (Int × FileSystemEvent)) (ev : FileSystemEvent)
      (l' : List (Int × FileSystemEvent)),
      inodeMapRemove ino l = some (ev, l') →
      ev ∈ l.map Prod.snd ∧ ∀ x ∈ l', x ∈ l := by
  intro l
  induction l with
  | nil => intro ev l' h; simp [inodeMapRemove] at h
  | cons kv rest ih =>
    intro ev l' h
    obtain ⟨k, v⟩ := kv
    unfold inodeMapRemove at h
    by_cases hk : k = ino
    · rw [if_pos hk] at h
      cases h
      exact ⟨List.mem_map_of_mem Prod.snd (List.mem_cons_self _ _),
             fun x hx => List.mem_cons_of_mem _ hx⟩
    · rw [if_neg hk] at h
      cases hrec : inodeMapRemove ino rest with
      | none => rw [hrec] at h; cases h
      | some p =>
        obtain ⟨found, rest'⟩ := p
        rw [hrec] at h
        simp only [Option.some.injEq, Prod.mk.injEq] at h
        obtain ⟨hev, hl⟩ := h
        subst hev
        subst hl
        obtain ⟨hin, hsub⟩ := ih found rest' hrec
        refine ⟨List.mem_cons_of_mem _ hin, fun x hx => ?_⟩
        rcases List.mem_cons.mp hx with hx | hx
        · subst hx; exact List.mem_cons_self _ _
        · exact List.mem_cons_of_mem _ (hsub x hx)

/-- Fold invariant for the Darwin callback: if every event stored in the
pairing map and every event sent so far carries a `some` target, the same
holds after processing the remaining batch entries. -/
theorem darwin_fold_targets (inputs : List DarwinInput) :
    ∀ (st : List (Int × FileSystemEvent) × List FileSystemEvent),
      (∀ kv ∈ st.1, (Prod.snd kv).target.isSome = true) →
      (∀ e ∈ st.2, e.target.isSome = true) →
      ∀ e ∈ (inputs.foldl darwin_step st).2, e.target.isSome = true := by
  induction inputs with
  | nil => intro st _ hsent e hmem; exact hsent e hmem
  | cons i rest ih =>
    intro st hmap hsent e hmem
    rw [List.foldl_cons] at hmem
    refine ih (darwin_step st i) ?_ ?_ e hmem
    · intro kv hkv
      unfold darwin_step at hkv
      by_cases hmove : darwin_event_type i.flags = FileSystemEventType.Move ∧ i.inode.isSome
      · rw [if_pos hmove] at hkv
        cases hrem : inodeMapRemove (i.inode.getD 0) st.1 with
        | none =>
          rw [hrem] at hkv
          simp only at hkv
          rcases List.mem_cons.mp hkv with hkv | hkv
          · subst hkv; rfl
          · exact hmap kv hkv
        | some p =>
          obtain ⟨old, map'⟩ := p
          rw [hrem] at hkv
          simp only at hkv
          exact hmap kv ((inodeMapRemove_spec _ _ _ _ hrem).2 kv hkv)
      · rw [if_neg hmove] at hkv
        exact hmap kv hkv
    · intro e' he'
      unfold darwin_step at he'
      by_cases hmove : darwin_event_type i.flags = FileSystemEventType.Move ∧ i.inode.isSome
      · rw [if_pos hmove] at he'
        cases hrem : inodeMapRemove (i.inode.getD 0) st.1 with
        | none =>
          rw [hrem] at he'
          exact hsent e' he'
        | some p =>
          obtain ⟨old, map'⟩ := p
          rw [hrem] at he'
          simp only at he'
          rcases List.mem_append.mp he' with he' | he'
          · exact hsent e' he'
          · have hold : old.target.isSome = true := by
              have hin := (inodeMapRemove_spec _ _ _ _ hrem).1
              rcases List.mem_map.mp hin with ⟨kv, hkv, hkveq⟩
              rw [← hkveq]
              exact hmap kv hkv
            rcases List.mem_cons.mp he' with he' | he'
            · subst he'; exact hold
            · rcases List.mem_cons.mp he' with he' | he'
              · subst he'; rfl
              · simp at he'
      · rw [if_neg hmove] at he'
        rcases List.mem_append.mp he' with he' | he'
        · exact hsent e' he'
        · rcases List.mem_cons.mp he' with he' | he'
          · subst he'; rfl
          · simp at he'

/-- If every attached record is a non-Fid record, the non-rename path loop
finishes with its accumulator unchanged. -/
theorem collectNonRenamePath_allNonFid :
    ∀ (records : List FanotifyInfoRecord) (acc : Option String),
      (∀ r ∈ records, r = FanotifyInfoRecord.NonFid) →
      collectNonRenamePath records acc = NonRenamePathOutcome.resolved acc := by
  intro records
  induction records with
  | nil => intro acc _; rfl
  | cons r rest ih =>
    intro acc hall
    have hr : r = FanotifyInfoRecord.NonFid := hall r (List.mem_cons_self _ _)
    subst hr
    unfold collectNonRenamePath
    exact ih acc (fun r hr => hall r (List.mem_cons_of_mem _ hr))

/-! ## Claim theorems -/

/-- C1 (counterexample): for the Linux rename pair with source `a` and
destination `b`, the event carrying the MovedFrom verb has `b` (the
destination) in `target.path`, not the source `a` required by the claim. -/
theorem C1_counterexample :
    ((renameEvents FileSystemTargetKind.File (some "a") (some "b")).filter
        (fun e => isMovedFromB e.event_type)).map (fun e => targetPathD e.target) =
      ["b"] ∧ "b" ≠ "a" := by
  decide

/-- C1 (amended): for every rename reconstructed as a pair on either
platform, the MovedTo event carries the rename's source path in
`target.path` and the destination path in its payload, and the MovedFrom
event carries the destination path in `target.path` and the source path in
its payload. -/
theorem C1_moved_pair_payloads :
    (∀ (kind : FileSystemTargetKind) (src dst : String),
      renameEvents kind (some src) (some dst) =
        [⟨FileSystemEventType.MovedTo dst, some ⟨kind, src⟩⟩,
         ⟨FileSystemEventType.MovedFrom src, some ⟨kind, dst⟩⟩]) ∧
    (∀ (map map' : List (Int × FileSystemEvent)) (sent : List FileSystemEvent)
       (old : FileSystemEvent) (i : DarwinInput) (ino : Int),
      darwin_event_type i.flags = FileSystemEventType.Move →
      i.inode = some ino →
      inodeMapRemove ino map = some (old, map') →
      darwin_step (map, sent) i =
        (map', sent ++
          [⟨FileSystemEventType.MovedTo i.path, old.target⟩,
           ⟨FileSystemEventType.MovedFrom (targetPathD old.target),
            some ⟨darwinEventKind i.flags, i.path⟩⟩])) := by
  constructor
  · intro kind src dst; rfl
  · intro map map' sent old i ino hmove hino hrem
    unfold darwin_step
    rw [if_pos ⟨hmove, by rw [hino]; rfl⟩]
    rw [hino]
    simp only [Option.getD_some]
    rw [hrem]

/-- C1 (witness): a concrete Darwin pairing, derived from the amended
theorem. -/
theorem C1_moved_pair_payloads_witness :
    darwin_step
      ([(5, ⟨FileSystemEventType.Move, some ⟨FileSystemTargetKind.File, "s"⟩⟩)], [])
      ⟨"d", some 5, ⟨false, false, false, true, false⟩⟩ =
      ([], [⟨FileSystemEventType.MovedTo "d", some ⟨FileSystemTargetKind.File, "s"⟩⟩,
            ⟨FileSystemEventType.MovedFrom "s",
             some ⟨FileSystemTargetKind.File, "d"⟩⟩]) := by
  have h := C1_moved_pair_payloads.2
    [(5, ⟨FileSystemEventType.Move, some ⟨FileSystemTargetKind.File, "s"⟩⟩)] []
    [] ⟨FileSystemEventType.Move, some ⟨FileSystemTargetKind.File, "s"⟩⟩
    ⟨"d", some 5, ⟨false, false, false, true, false⟩⟩ 5 rfl rfl (by decide)
  simpa using h

/-- C2 (counterexample): on both platforms the first event of a paired
rename carries the MovedTo verb, not MovedFrom: mapping the MovedFrom test
over the emitted pair yields `[false, true]`, refuting the claimed
MovedFrom-then-MovedTo order. -/
theorem C2_counterexample :
    ((renameEvents FileSystemTargetKind.File (some "a") (some "b")).map
        (fun e => isMovedFromB e.event_type)) = [false, true] ∧
    ((darwin_callback
        [⟨"a", some 7, ⟨false, false, false, true, false⟩⟩,
         ⟨"b", some 7, ⟨false, false, false, true, false⟩⟩]).map
        (fun e => isMovedFromB e.event_type)) = [false, true] := by
  decide

/-- C2 (amended): whenever both halves of a rename are resolved and paired,
the two events are emitted contiguously as an ordered pair with the
MovedTo event sent before the MovedFrom event. -/
theorem C2_pair_emission_order :
    (∀ (kind : FileSystemTargetKind) (src dst : String),
      (renameEvents kind (some src) (some dst)).map (fun e => e.event_type) =
        [FileSystemEventType.MovedTo dst, FileSystemEventType.MovedFrom src]) ∧
    (∀ (map map' : List (Int × FileSystemEvent)) (sent : List FileSystemEvent)
       (old : FileSystemEvent) (i : DarwinInput) (ino : Int),
      darwin_event_type i.flags = FileSystemEventType.Move →
      i.inode = some ino →
      inodeMapRemove ino map = some (old, map') →
      ((darwin_step (map, sent) i).2).map (fun e => e.event_type) =
        sent.map (fun e => e.event_type) ++
          [FileSystemEventType.MovedTo i.path,
           FileSystemEventType.MovedFrom (targetPathD old.target)]) := by
  constructor
  · intro kind src dst; rfl
  · intro map map' sent old i ino hmove hino hrem
    unfold darwin_step
    rw [if_pos ⟨hmove, by rw [hino]; rfl⟩]
    rw [hino]
    simp only [Option.getD_some]
    rw [hrem]
    simp

/-- C2 (witness): a concrete Darwin pairing exercising the amended order,
derived from the amended theorem. -/
theorem C2_pair_emission_order_witness :
    ((darwin_step
        ([(9, ⟨FileSystemEventType.Move, some ⟨FileSystemTargetKind.Directory, "p"⟩⟩)],
         [⟨FileSystemEventType.Create, some ⟨FileSystemTargetKind.File, "x"⟩⟩])
        ⟨"q", some 9, ⟨true, false, false, true, false⟩⟩).2).map
      (fun e => e.event_type) =
      [FileSystemEventType.Create, FileSystemEventType.MovedTo "q",
       FileSystemEventType.MovedFrom "p"] := by
  have h := C2_pair_emission_order.2
    [(9, ⟨FileSystemEventType.Move, some ⟨FileSystemTargetKind.Directory, "p"⟩⟩)] []
    [⟨FileSystemEventType.Create, some ⟨FileSystemTargetKind.File, "x"⟩⟩]
    ⟨FileSystemEventType.Move, some ⟨FileSystemTargetKind.Directory, "p"⟩⟩
    ⟨"q", some 9, ⟨true, false, false, true, false⟩⟩ 9 rfl rfl (by decide)
  simpa using h

/-- C3 (counterexample): in a rename record list where a stale record sits
between the old-name record (resolving to `olddir/f`) and a new-name record
that would resolve to `newdir/g`, the loop stops at the stale record: the
moved-to half stays `none` instead of the `some "newdir/g"` the claim
requires from examining the remaining records. -/
theorem C3_counterexample :
    collectRenamePaths
      [FanotifyInfoRecord.Fid ⟨FidInfoType.oldDfidName, Except.ok "olddir", some "f"⟩,
       FanotifyInfoRecord.Fid ⟨FidInfoType.newDfidName, Except.error Errno.ESTALE, none⟩,
       FanotifyInfoRecord.Fid ⟨FidInfoType.newDfidName, Except.ok "newdir", some "g"⟩]
      none none = Except.ok (some "olddir/f", none) ∧
    (none : Option String) ≠ some "newdir/g" := by
  decide

/-- C3 (amended): in the Linux rename handling, when path resolution for an
attached record returns a stale-handle indication, that record and all
remaining records of the event are abandoned (the record loop breaks); the
halves resolved before the stale record are kept and used. -/
theorem C3_stale_breaks_record_loop :
    ∀ (r : FidRecord) (rest : List FanotifyInfoRecord) (mf mt : Option String),
      get_path_from_record r = Except.error Errno.ESTALE →
      collectRenamePaths (FanotifyInfoRecord.Fid r :: rest) mf mt =
        Except.ok (mf, mt) := by
  intro r rest mf mt hstale
  unfold collectRenamePaths
  rw [hstale]
  rfl

/-- C3 (witness): a concrete stale record followed by a resolvable record,
derived from the amended theorem. -/
theorem C3_stale_breaks_record_loop_witness :
    collectRenamePaths
      [FanotifyInfoRecord.Fid ⟨FidInfoType.newDfidName, Except.error Errno.ESTALE, some "n"⟩,
       FanotifyInfoRecord.Fid ⟨FidInfoType.newDfidName, Except.ok "base", some "n"⟩]
      (some "old") none = Except.ok (some "old", none) :=
  C3_stale_breaks_record_loop
    ⟨FidInfoType.newDfidName, Except.error Errno.ESTALE, some "n"⟩
    [FanotifyInfoRecord.Fid ⟨FidInfoType.newDfidName, Except.ok "base", some "n"⟩]
    (some "old") none rfl

/-- C4 (counterexample): with no broadcast receivers, a drained create
event makes `start` return `StreamClosedError` instead of continuing as the
claim states. -/
theorem C4_counterexample :
    stepEvent false
      ⟨⟨false, false, true, false, false, false, false⟩,
       [FanotifyInfoRecord.Fid ⟨FidInfoType.otherInfo, Except.ok "p", none⟩],
       MarkOutcome.ok⟩ = Except.error KanshiError.StreamClosedError := by
  decide

/-- C4 (amended): in the Linux running loop, a failure to send an event to
the broadcast sink because there are no receivers is fatal: whenever an
event produces at least one event to send, `start` returns
`StreamClosedError` instead of continuing. -/
theorem C4_send_failure_fatal :
    ∀ (ev : FanotifyEvent) (evs : List FileSystemEvent),
      processEvent ev = Except.ok evs → evs ≠ [] →
      stepEvent false ev = Except.error KanshiError.StreamClosedError := by
  intro ev evs hok hne
  unfold stepEvent
  rw [hok]
  cases evs with
  | nil => exact absurd rfl hne
  | cons e rest => rfl

/-- C4 (witness): a concrete delete event with no receivers, derived from
the amended theorem. -/
theorem C4_send_failure_fatal_witness :
    stepEvent false
      ⟨⟨false, false, false, false, true, false, false⟩,
       [FanotifyInfoRecord.Fid ⟨FidInfoType.otherInfo, Except.ok "q", none⟩],
       MarkOutcome.ok⟩ = Except.error KanshiError.StreamClosedError :=
  C4_send_failure_fatal
    ⟨⟨false, false, false, false, true, false, false⟩,
     [FanotifyInfoRecord.Fid ⟨FidInfoType.otherInfo, Except.ok "q", none⟩],
     MarkOutcome.ok⟩
    [⟨FileSystemEventType.Delete, some ⟨FileSystemTargetKind.File, "q"⟩⟩]
    (by decide) (by decide)

/-- C5 (counterexample): a Linux create event with no attached Fid record
is delivered with no target at all, refuting the claim that every
delivered Create event has a target with a non-empty path. -/
theorem C5_counterexample :
    processEvent ⟨⟨false, false, true, false, false, false, false⟩, [],
        MarkOutcome.ok⟩ =
      Except.ok [⟨FileSystemEventType.Create, none⟩] ∧
    (FileSystemEvent.target ⟨FileSystemEventType.Create, none⟩).isSome = false := by
  decide

/-- C5 (amended): every event the Linux loop delivers with event type
Create, Delete or Modify either has no target or has a target with a
non-empty path, and every event the Darwin callback delivers has a
target. -/
theorem C5_target_population :
    (∀ (ev : FanotifyEvent) (evs : List FileSystemEvent) (e : FileSystemEvent),
      processEvent ev = Except.ok evs → e ∈ evs →
      (e.event_type = FileSystemEventType.Create ∨
       e.event_type = FileSystemEventType.Delete ∨
       e.event_type = FileSystemEventType.Modify) →
      e.target = none ∨ ∃ t, e.target = some t ∧ t.path.length > 0) ∧
    (∀ (inputs : List DarwinInput) (e : FileSystemEvent),
      e ∈ darwin_callback inputs → e.target.isSome = true) := by
  constructor
  · intro ev evs e hok hmem _
    unfold processEvent at hok
    by_cases hr : ev.mask.fan_rename
    · rw [if_pos hr] at hok
      unfold processRename at hok
      cases hc : collectRenamePaths ev.records none none with
      | error e' => rw [hc] at hok; cases hok
      | ok pq =>
        obtain ⟨mf, mt⟩ := pq
        rw [hc] at hok
        simp only [Except.ok.injEq] at hok
        subst hok
        rcases renameEvents_types (eventKind ev.mask) mf mt e hmem with h | h | h
        · rcases ‹e.event_type = FileSystemEventType.Create ∨ _ ∨ _› with h2 | h2 | h2 <;>
            rw [h2] at h <;> cases h
        · obtain ⟨p, hp⟩ := h
          rcases ‹e.event_type = FileSystemEventType.Create ∨ _ ∨ _› with h2 | h2 | h2 <;>
            rw [h2] at hp <;> cases hp
        · obtain ⟨p, hp⟩ := h
          rcases ‹e.event_type = FileSystemEventType.Create ∨ _ ∨ _› with h2 | h2 | h2 <;>
            rw [h2] at hp <;> cases hp
    · rw [if_neg hr] at hok
      rcases (processNonRename_events ev evs e hok hmem).2 with h | ⟨p, hp, hlen⟩
      · exact Or.inl h
      · exact Or.inr ⟨⟨eventKind ev.mask, p⟩, hp, hlen⟩
  · intro inputs e hmem
    exact darwin_fold_targets inputs ([], []) (by intro kv h; cases h)
      (by intro e' h; cases h) e hmem

/-- C5 (witness): the amended theorem applied to a concrete modify event
with a resolved non-empty path. -/
theorem C5_target_population_witness :
    ((⟨FileSystemEventType.Modify,
        some ⟨FileSystemTargetKind.File, "f"⟩⟩ : FileSystemEvent).target = none ∨
      ∃ t, (⟨FileSystemEventType.Modify,
        some ⟨FileSystemTargetKind.File, "f"⟩⟩ : FileSystemEvent).target = some t ∧
          t.path.length > 0) := by
  have h := C5_target_population.1
    ⟨⟨false, false, false, false, false, true, false⟩,
     [FanotifyInfoRecord.Fid ⟨FidInfoType.otherInfo, Except.ok "f", none⟩],
     MarkOutcome.ok⟩
    [⟨FileSystemEventType.Modify, some ⟨FileSystemTargetKind.File, "f"⟩⟩]
    ⟨FileSystemEventType.Modify, some ⟨FileSystemTargetKind.File, "f"⟩⟩
    (by decide) (by decide) (by decide)
  exact h

/-- C6 (confirmed): the Darwin callback maps flags to an event type with
the priority stated by the specification: created takes precedence (inside
it, removed gives Delete, then renamed gives Move, else Create), then
removed gives Delete, then modified gives Modify, then renamed gives Move,
otherwise Unknown. -/
theorem C6_darwin_flag_mapping :
    ∀ f : FSFlags, darwin_event_type f = spec_darwin_event_type f := by
  intro f
  obtain ⟨d, c, r, rn, m⟩ := f
  cases c <;> cases r <;> cases rn <;> cases m <;> rfl

/-- C7 (confirmed): in the stream returned by `get_events_stream` on both
platforms, a Lagged receive error never ends the sequence (the loop
continues), a received event is yielded, and a Closed channel error or
cancellation ends the sequence. -/
theorem C7_stream_loop_behaviour :
    (∀ n, linux_stream_step (SelectOutcome.recv (RecvOutcome.lagged n)) =
      StreamAction.keepGoing) ∧
    (∀ e, linux_stream_step (SelectOutcome.recv (RecvOutcome.ok e)) =
      StreamAction.yieldEvent e) ∧
    linux_stream_step (SelectOutcome.recv RecvOutcome.closed) = StreamAction.stop ∧
    linux_stream_step SelectOutcome.cancelled = StreamAction.stop ∧
    (∀ n, darwin_stream_step (SelectOutcome.recv (RecvOutcome.lagged n)) =
      StreamAction.keepGoing) ∧
    (∀ e, darwin_stream_step (SelectOutcome.recv (RecvOutcome.ok e)) =
      StreamAction.yieldEvent e) ∧
    darwin_stream_step (SelectOutcome.recv RecvOutcome.closed) = StreamAction.stop ∧
    darwin_stream_step SelectOutcome.cancelled = StreamAction.stop :=
  ⟨fun _ => rfl, fun _ => rfl, rfl, rfl, fun _ => rfl, fun _ => rfl, rfl, rfl⟩

/-- C8 (confirmed): once the cancellation token is cancelled, every call to
`watch` on the Linux adapter returns `StreamClosedError` and installs no
marks, for any filesystem contents, mark outcomes, directory and traversal
fuel. -/
theorem C8_watch_after_close :
    ∀ (fsView : ReadDirView) (markView : MarkView) (dir : String) (fuel : Nat),
      linux_watch fsView markView true dir fuel =
        (Except.error KanshiError.StreamClosedError, []) := by
  intro fsView markView dir fuel
  rfl

/-- C9 (confirmed): `close` on an already-cancelled tracer returns true and
performs no kernel-resource operation on either platform: no epoll
deregistration or mark flush on Linux, no stream stop or queue release on
Darwin. -/
theorem C9_close_idempotent :
    (∀ epollDeleteOk markFlushOk : Bool,
      linux_close true epollDeleteOk markFlushOk = (true, ⟨false, false⟩)) ∧
    (∀ streamLockOk streamPresent dqLockOk dqPresent : Bool,
      darwin_close true streamLockOk streamPresent dqLockOk dqPresent =
        (true, ⟨false, false⟩)) :=
  ⟨fun _ _ => rfl, fun _ _ _ _ => rfl⟩

/-- C10 (confirmed): a Linux non-rename event with no attached Fid record,
or whose resolved path is empty, is still delivered with `target = none`;
and whenever a delivered non-rename event carries a target, its path is
non-empty. -/
theorem C10_nonrename_target_none :
    (∀ ev : FanotifyEvent, ev.mask.fan_rename = false →
      (∀ r ∈ ev.records, r = FanotifyInfoRecord.NonFid) →
      processEvent ev = Except.ok [⟨nonRenameEventType ev.mask, none⟩]) ∧
    (∀ (ev : FanotifyEvent) (p : String), ev.mask.fan_rename = false →
      collectNonRenamePath ev.records none = NonRenamePathOutcome.resolved (some p) →
      p.length = 0 →
      processEvent ev = Except.ok [⟨nonRenameEventType ev.mask, none⟩]) ∧
    (∀ (ev : FanotifyEvent) (evs : List FileSystemEvent) (e : FileSystemEvent)
       (t : FileSystemTarget),
      ev.mask.fan_rename = false →
      processEvent ev = Except.ok evs → e ∈ evs → e.target = some t →
      t.path.length > 0) := by
  refine ⟨?_, ?_, ?_⟩
  · intro ev hren hall
    have hc := collectNonRenamePath_allNonFid ev.records none hall
    unfold processEvent
    rw [hren]
    unfold processNonRename
    rw [hc]
    rfl
  · intro ev p hren hc hlen
    unfold processEvent
    rw [hren]
    unfold processNonRename
    rw [hc]
    dsimp only
    have hnot : ¬ p.length > 0 := by rw [hlen]; exact lt_irrefl 0
    rw [if_neg hnot]
    rfl
  · intro ev evs e t hren hok hmem ht
    unfold processEvent at hok
    rw [hren] at hok
    rcases (processNonRename_events ev evs e hok hmem).2 with h | ⟨p, hp, hlen⟩
    · rw [h] at ht; cases ht
    · rw [hp] at ht
      injection ht with ht
      rw [← ht]
      exact hlen

/-- C10 (witness): a concrete delete event with only a non-Fid record is
delivered with no target, derived from the theorem. -/
theorem C10_nonrename_target_none_witness :
    processEvent
      ⟨⟨false, false, false, true, false, false, false⟩,
       [FanotifyInfoRecord.NonFid], MarkOutcome.ok⟩ =
      Except.ok [⟨FileSystemEventType.Delete, none⟩] := by
  have h := C10_nonrename_target_none.1
    ⟨⟨false, false, false, true, false, false, false⟩,
     [FanotifyInfoRecord.NonFid], MarkOutcome.ok⟩
    rfl (by decide)
  exact h
